import Mathlib

/-!
# Verification of the live candle aggregator and orchestration loop

Shallow embedding of `src/live_data_collector.py` (class `LiveDataCollector`)
and `src/live_trader.py` (class `IntegratedLiveTrader`).

Prices, sizes and timestamps are modelled as rationals (`ℚ`); wall-clock
instants are rationals measured in seconds. A quote fetch that returns no
quote, or raises, is modelled as input `none` (the code returns `False`
before touching any state in both cases). External collaborators
(indicator math, signal detector, Discord sink, broker) are modelled by
their observable effects: per-iteration oracle inputs and an emitted event
list.
-/

namespace Trader

/-- A bid/ask quote as consumed by `LiveDataCollector.update`. -/
structure Quote where
  bid_price : ℚ
  ask_price : ℚ
  bid_size : ℚ
  ask_size : ℚ
  deriving DecidableEq

/-- `price = (quote.bid_price + quote.ask_price) / 2` in `update`. -/
def midPrice (q : Quote) : ℚ := (q.bid_price + q.ask_price) / 2

/-- `vol = (quote.bid_size + quote.ask_size) / 2` in `update`. -/
def midSize (q : Quote) : ℚ := (q.bid_size + q.ask_size) / 2

/-- A completed candle, as the dict appended to `self.candles`. -/
structure Candle where
  timestamp : ℚ
  open_ : ℚ
  high : ℚ
  low : ℚ
  close : ℚ
  volume : ℚ
  deriving DecidableEq

/-- The in-progress candle dict `self.current_candle` once its `open` is set.
While `open is None` the dict carries no information other than `volume = 0`
(and `volume` is only read after `open` is set), so the uninitialized dict is
modelled as `none` at the `CollectorState` level. -/
structure Agg where
  open_ : ℚ
  high : ℚ
  low : ℚ
  close : ℚ
  volume : ℚ
  deriving DecidableEq

/-- Mutable state of `LiveDataCollector`: `self.candles`,
`self.current_candle`, `self.candle_start`. -/
structure CollectorState where
  candles : List Candle
  current : Option Agg
  candle_start : ℚ
  deriving DecidableEq

/-- `self.interval = timedelta(minutes=5)`, in seconds. -/
def interval : ℚ := 300

/-- Round half to even to an integer, the rounding mode of Python `round`. -/
def halfEvenRound (x : ℚ) : ℤ :=
  let f : ℤ := ⌊x⌋
  let r : ℚ := x - (f : ℚ)
  if r < 1/2 then f
  else if (1/2 : ℚ) < r then f + 1
  else if f % 2 = 0 then f else f + 1

/-- `round(v, 6)`: round to six decimal places. -/
def round6 (x : ℚ) : ℚ := (halfEvenRound (x * 1000000) : ℚ) / 1000000

/-- `start_collection`: `candle_start = now`, fresh uninitialized
`current_candle`. -/
def start_collection (now : ℚ) : CollectorState :=
  { candles := [], current := none, candle_start := now }

/-- Seeding `self.current_candle` with the current quote:
`{'open': price, 'high': price, 'low': price, 'close': price, 'volume': vol}`. -/
def seedAgg (q : Quote) : Agg :=
  { open_ := midPrice q, high := midPrice q, low := midPrice q
    close := midPrice q, volume := midSize q }

/-- The in-window branch of `update` on an initialized `current_candle`:
`high = max(high, price)`, `low = min(low, price)`, `close = price`,
`volume += vol`. -/
def stepAgg (a : Agg) (q : Quote) : Agg :=
  { open_ := a.open_, high := max a.high (midPrice q)
    low := min a.low (midPrice q), close := midPrice q
    volume := a.volume + midSize q }

/-- Finalizing `current_candle` into the dict appended to `self.candles`:
`timestamp = self.candle_start`, volume rounded to six decimals. -/
def finalizeAgg (a : Agg) (window_start : ℚ) : Candle :=
  { timestamp := window_start, open_ := a.open_, high := a.high
    low := a.low, close := a.close, volume := round6 a.volume }

/-- `LiveDataCollector.update`. Input `none` models a falsy quote (`if not
quote: return False`) as well as a fetch that raises (the `except` branch:
nothing was mutated yet, `return False`). Returns the Python return value
paired with the new state. -/
def update (s : CollectorState) (q? : Option Quote) (now : ℚ) : Bool × CollectorState :=
  match q? with
  | none => (false, s)
  | some q =>
    if interval ≤ now - s.candle_start then
      match s.current with
      | some cur =>
        (true, { candles := s.candles ++ [finalizeAgg cur s.candle_start]
                 current := some (seedAgg q)
                 candle_start := now })
      | none =>
        (false, { s with current := some (seedAgg q), candle_start := now })
    else
      match s.current with
      | none => (false, { s with current := some (seedAgg q) })
      | some cur => (false, { s with current := some (stepAgg cur q) })

/-- `get_dataframe`: `None` when `self.candles` is empty (`if not
self.candles`), otherwise the candle list (the DataFrame rows in order). -/
def get_dataframe (s : CollectorState) : Option (List Candle) :=
  if s.candles.isEmpty = true then none else some s.candles

/-- `has_minimum_candles`: `len(self.candles) >= min_count`. -/
def has_minimum_candles (s : CollectorState) (min_count : ℕ) : Bool :=
  min_count ≤ s.candles.length

/-- A detected trade signal, as the dict produced by
`SignalDetector.detect_signal` and consumed by `on_new_candle`. -/
structure Signal where
  type_ : String
  confidence : ℚ
  price : ℚ
  rsi : ℚ
  deriving DecidableEq

/-- Observable effects of one loop iteration: the trading-enabled Discord
notification (with the candle count it reports), an invocation of the
indicator math (`IndicatorCalculator.calculate_*`), an invocation of
`SignalDetector.detect_signal`, a `send_signal` delivery with the fetched
equity, and a periodic account status update. -/
inductive Event where
  | notifyEnabled (count : ℕ)
  | computeIndicators
  | detectSignal
  | sendSignal (sig : Signal) (equity : ℚ)
  | statusUpdate
  deriving DecidableEq

/-- External-world inputs consumed by one iteration of the `run` loop:
the fetched quote (`none` = unavailable or fetch raised) and the clock
read inside `update`; the `time.time()` read for the Discord cooldown;
whether the indicator computations succeed; the detector's result
(`none` also covers a detector that raises); and the result of
`get_account()` in the signal path (`none` = the call raised). -/
structure IterInput where
  quote : Option Quote
  now : ℚ
  wall_time : ℚ
  indicators_ok : Bool
  signal : Option Signal
  equity : Option ℚ
  deriving DecidableEq

/-- The configuration keys read by the loop. -/
structure Config where
  min_candles_required : ℕ
  discord_update_interval : ℚ

/-- Mutable state of `IntegratedLiveTrader` threaded through the loop:
the collector, `self.trading_enabled`, whether `self.signal_detector` is
set, whether `self.discord` is set, and `self.last_discord_update`. -/
structure TraderState where
  collector : CollectorState
  trading_enabled : Bool
  hasDetector : Bool
  hasDiscord : Bool
  last_discord_update : ℚ
  deriving DecidableEq

/-- State after `__init__` plus `run`'s call to `start_collection`. -/
def initTrader (hasDiscord : Bool) (t0 w0 : ℚ) : TraderState :=
  { collector := start_collection t0, trading_enabled := false
    hasDetector := false, hasDiscord := hasDiscord
    last_discord_update := w0 }

/-- `IntegratedLiveTrader.on_new_candle`, as the list of events it emits.
`c` is the collector state at call time. It returns early when
`get_dataframe` is `None` or has fewer than 100 rows; an indicator
exception returns after the indicator calls; the signal path runs only
when `self.signal_detector` is set; on a detected signal with Discord
enabled, `get_account()` and `send_signal` sit in one `try/except: pass`,
so a failed equity fetch (`equity = none`) emits no `send_signal`. -/
def on_new_candle (c : CollectorState) (hasDiscord hasDetector : Bool)
    (inp : IterInput) : List Event :=
  match get_dataframe c with
  | none => []
  | some df =>
    if df.length < 100 then []
    else
      Event.computeIndicators ::
      (if inp.indicators_ok = false then []
       else if hasDetector = false then []
       else Event.detectSignal ::
         (match inp.signal with
          | none => []
          | some sig =>
            if hasDiscord = true then
              match inp.equity with
              | some e => [Event.sendSignal sig e]
              | none => []
            else []))

/-- Tail of one loop iteration after the COLLECTING check: the
`if self.trading_enabled and new_candle` dispatch to `on_new_candle`,
then the Discord status-update cooldown block. `ev1` carries the events
already emitted by the transition check. -/
def afterEnable (cfg : Config) (s : TraderState) (new_candle : Bool)
    (inp : IterInput) (ev1 : List Event) : TraderState × List Event :=
  let ev2 :=
    if s.trading_enabled = true ∧ new_candle = true then
      on_new_candle s.collector s.hasDiscord s.hasDetector inp
    else []
  if s.hasDiscord = true ∧ s.trading_enabled = true ∧
      cfg.discord_update_interval < inp.wall_time - s.last_discord_update then
    ({ s with last_discord_update := inp.wall_time },
     ev1 ++ ev2 ++ [Event.statusUpdate])
  else
    (s, ev1 ++ ev2)

/-- One iteration of the `while self.running` body of
`IntegratedLiveTrader.run`: poll and `update`; if not yet trading-enabled
and `has_minimum_candles` holds, set `trading_enabled = True`, create the
`SignalDetector`, and (if Discord is up) send the trading-enabled
notification with the current candle count; then the enabled/new-candle
dispatch and the status-update block. -/
def step (cfg : Config) (s : TraderState) (inp : IterInput) : TraderState × List Event :=
  let r := update s.collector inp.quote inp.now
  let col := r.2
  if s.trading_enabled = false then
    if has_minimum_candles col cfg.min_candles_required = true then
      afterEnable cfg
        { s with collector := col, trading_enabled := true, hasDetector := true }
        r.1 inp
        (if s.hasDiscord = true then [Event.notifyEnabled col.candles.length] else [])
    else
      afterEnable cfg { s with collector := col } r.1 inp []
  else
    afterEnable cfg { s with collector := col } r.1 inp []

/-- The loop itself over a finite list of per-iteration inputs, returning
the final state and the concatenated event trace. -/
def run (cfg : Config) : TraderState → List IterInput → TraderState × List Event
  | s, [] => (s, [])
  | s, inp :: rest =>
    let p := step cfg s inp
    let q := run cfg p.1 rest
    (q.1, p.2 ++ q.2)

/-- Recognizer for the trading-enabled notification event. -/
def isNotify : Event → Bool
  | .notifyEnabled _ => true
  | _ => false

/-- Recognizer for an invocation of the indicator math or the signal
detector. -/
def isEval : Event → Bool
  | .computeIndicators => true
  | .detectSignal => true
  | _ => false

/-- Recognizer for a `send_signal` delivery. -/
def isSend : Event → Bool
  | .sendSignal _ _ => true
  | _ => false

/-- Folding a whole quote list into the pending aggregate. -/
def foldAgg (a : Agg) (qs : List Quote) : Agg := qs.foldl stepAgg a

/-- Ingesting one timestamped quote: the state part of `update`. -/
def ingestOne (s : CollectorState) (p : Quote × ℚ) : CollectorState :=
  (update s (some p.1) p.2).2

/-- Ingesting a list of timestamped quotes in order. -/
def ingestAll (s : CollectorState) (l : List (Quote × ℚ)) : CollectorState :=
  l.foldl ingestOne s

/-- How many trading-enabled notifications a trace contains. -/
def countNotify (l : List Event) : ℕ := l.countP isNotify

/-- How many indicator/detector invocations a trace contains. -/
def countEval (l : List Event) : ℕ := l.countP isEval

/-- How many `send_signal` deliveries a trace contains. -/
def countSend (l : List Event) : ℕ := l.countP isSend

/-- Chronology invariant of the collector: candle timestamps strictly
increase along the history and all lie strictly before the start of the
currently open window. Established by `start_collection` and preserved by
`update`. -/
def Chrono (s : CollectorState) : Prop :=
  List.Chain' (· < ·) (s.candles.map Candle.timestamp)
  ∧ ∀ c ∈ s.candles, c.timestamp < s.candle_start

/-- Concrete quote with mid-price 100 and mid-size 1. -/
def qW1 : Quote := ⟨100, 100, 1, 1⟩

/-- Concrete quote with mid-price 105 and mid-size 1. -/
def qW2 : Quote := ⟨105, 105, 1, 1⟩

/-- Concrete quote with mid-price 95 and mid-size 1. -/
def qW3 : Quote := ⟨95, 95, 1, 1⟩

/-- Concrete quote with mid-price 102 and mid-size 2. -/
def qW4 : Quote := ⟨102, 102, 2, 2⟩

/-- Concrete quote with mid-price 1 and mid-size 1, used to cross a
window boundary. -/
def qW5 : Quote := ⟨1, 1, 1, 1⟩

/-- A concrete completed candle. -/
def cW : Candle := ⟨0, 1, 1, 1, 1, 1⟩

/-- A concrete pending aggregate. -/
def aW : Agg := ⟨1, 1, 1, 1, 1⟩

/-- Concrete config: one candle required, 300-second Discord cooldown. -/
def cfgW : Config := ⟨1, 300⟩

/-- Concrete config requiring two candles. -/
def cfgW2 : Config := ⟨2, 300⟩

/-- Concrete iteration input: quote `qW1` ten seconds into the window. -/
def iW1 : IterInput :=
  { quote := some qW1, now := 10, wall_time := 0, indicators_ok := true
    signal := none, equity := none }

/-- Concrete iteration input: quote `qW5` past the window boundary. -/
def iW2 : IterInput :=
  { quote := some qW5, now := 310, wall_time := 0, indicators_ok := true
    signal := none, equity := none }

/-- A history of one hundred completed candles. -/
def csW : List Candle :=
  (List.range 100).map fun n : ℕ => ⟨(n : ℚ), 1, 1, 1, 1, 1⟩

/-- A concrete detected signal. -/
def sigW : Signal := ⟨"LONG", 1, 2, 50⟩

/-- Concrete trader state: trading enabled, detector and Discord up, one
hundred candles of history, an initialized pending aggregate. -/
def sigState : TraderState :=
  { collector := { candles := csW, current := some aW, candle_start := 100 }
    trading_enabled := true, hasDetector := true, hasDiscord := true
    last_discord_update := 0 }

/-- Concrete iteration input in which a candle completes, the detector
produces `sigW`, and the `get_account()` equity fetch raises. -/
def sigInput : IterInput :=
  { quote := some qW5, now := 400, wall_time := 0, indicators_ok := true
    signal := some sigW, equity := none }

/-- Concrete iteration input: quote `qW5` past the boundary of a window
that started at time 100. -/
def iW3 : IterInput :=
  { quote := some qW5, now := 500, wall_time := 0, indicators_ok := true
    signal := none, equity := none }

/-- Concrete trader state with a single completed candle, trading
enabled, detector and Discord up. -/
def shortState : TraderState :=
  { collector := { candles := [cW], current := some aW, candle_start := 100 }
    trading_enabled := true, hasDiscord := true, hasDetector := true
    last_discord_update := 0 }

/-! ## Lemmas about the candle aggregator -/

theorem update_length_le (s : CollectorState) (q? : Option Quote) (now : ℚ) :
    s.candles.length ≤ (update s q? now).2.candles.length := by
  rcases q? with _ | q
  · simp [update]
  · by_cases h : interval ≤ now - s.candle_start
    · rcases hc : s.current with _ | cur <;> simp [update, h, hc]
    · rcases hc : s.current with _ | cur <;> simp [update, h, hc]

theorem update_length_le_succ (s : CollectorState) (q? : Option Quote) (now : ℚ) :
    (update s q? now).2.candles.length ≤ s.candles.length + 1 := by
  rcases q? with _ | q
  · simp [update]
  · by_cases h : interval ≤ now - s.candle_start
    · rcases hc : s.current with _ | cur <;> simp [update, h, hc]
    · rcases hc : s.current with _ | cur <;> simp [update, h, hc]

theorem update_length_succ_iff (s : CollectorState) (q? : Option Quote) (now : ℚ) :
    (update s q? now).2.candles.length = s.candles.length + 1 ↔
      q?.isSome = true ∧ interval ≤ now - s.candle_start ∧ s.current.isSome = true := by
  rcases q? with _ | q
  · simp [update]
  · by_cases h : interval ≤ now - s.candle_start
    · rcases hc : s.current with _ | cur <;> simp [update, h, hc]
    · rcases hc : s.current with _ | cur <;> simp [update, h, hc]

theorem update_fst_iff (s : CollectorState) (q? : Option Quote) (now : ℚ) :
    (update s q? now).1 = true ↔
      (update s q? now).2.candles.length = s.candles.length + 1 := by
  rcases q? with _ | q
  · simp [update]
  · by_cases h : interval ≤ now - s.candle_start
    · rcases hc : s.current with _ | cur <;> simp [update, h, hc]
    · rcases hc : s.current with _ | cur <;> simp [update, h, hc]

/-! ## Claim theorems for the aggregator's error handling and invariants -/

/-- C4: an ingest call whose quote fetch yields no quote (or raises)
returns `False` and leaves the collector state — pending aggregate,
window start and candle history — exactly as it was. -/
theorem ingest_unavailable_is_noop (s : CollectorState) (now : ℚ) :
    update s none now = (false, s) := rfl

/-- C8: across every possible ingest call the history length is
non-decreasing, grows by at most one, grows by exactly one precisely when
a quote arrives at or past the window boundary while the pending
aggregate is initialized, and the call reports a completed candle exactly
when the history grew. -/
theorem history_length_monotone (s : CollectorState) (q? : Option Quote) (now : ℚ) :
    s.candles.length ≤ (update s q? now).2.candles.length
    ∧ (update s q? now).2.candles.length ≤ s.candles.length + 1
    ∧ ((update s q? now).2.candles.length = s.candles.length + 1 ↔
        q?.isSome = true ∧ interval ≤ now - s.candle_start ∧ s.current.isSome = true)
    ∧ ((update s q? now).1 = true ↔
        (update s q? now).2.candles.length = s.candles.length + 1) :=
  ⟨update_length_le s q? now, update_length_le_succ s q? now,
   update_length_succ_iff s q? now, update_fst_iff s q? now⟩

/-- C3: an ingest call at or past the window boundary while the pending
aggregate is uninitialized emits nothing and resets the window start,
leaving the history untouched; and in general the history can only grow
on a call that has both an initialized aggregate and an actual quote, so
every appended candle aggregates at least one quote. -/
theorem no_empty_candle (s s2 : CollectorState) (q : Quote) (q2? : Option Quote)
    (now now2 : ℚ) (h1 : s.current = none) (h2 : interval ≤ now - s.candle_start) :
    (update s (some q) now).1 = false
    ∧ (update s (some q) now).2.candles = s.candles
    ∧ (update s (some q) now).2.candle_start = now
    ∧ (s2.candles.length < (update s2 q2? now2).2.candles.length →
        s2.current.isSome = true ∧ q2?.isSome = true) := by
  refine ⟨by simp [update, h1, h2], by simp [update, h1, h2], by simp [update, h1, h2], ?_⟩
  intro hlt
  have hle := update_length_le_succ s2 q2? now2
  have heq : (update s2 q2? now2).2.candles.length = s2.candles.length + 1 := by omega
  have h := (update_length_succ_iff s2 q2? now2).mp heq
  exact ⟨h.2.2, h.1⟩

/-- C3 witness: at a concrete empty-window boundary call the history
stays empty and the window start moves to the call time. -/
theorem no_empty_candle_witness :
    interval ≤ (300 : ℚ) - (start_collection 0).candle_start
    ∧ (update (start_collection 0) (some qW1) 300).2.candles = []
    ∧ (update (start_collection 0) (some qW1) 300).2.candle_start = 300 := by
  have h2 : interval ≤ (300 : ℚ) - (start_collection 0).candle_start := by
    norm_num [interval, start_collection]
  have h := no_empty_candle (start_collection 0) (start_collection 0) qW1 none 300 300 rfl h2
  exact ⟨h2, h.2.1, h.2.2.1⟩

theorem candle_start_lt (s : CollectorState) (now : ℚ)
    (hb : interval ≤ now - s.candle_start) : s.candle_start < now := by
  have h300 : (0 : ℚ) < 300 := by norm_num
  have : (300 : ℚ) ≤ now - s.candle_start := by simpa [interval] using hb
  linarith

theorem update_chrono (s : CollectorState) (q? : Option Quote) (now : ℚ)
    (h : Chrono s) : Chrono (update s q? now).2 := by
  rcases q? with _ | q
  · simpa [update] using h
  · by_cases hb : interval ≤ now - s.candle_start
    · have hnow := candle_start_lt s now hb
      rcases hc : s.current with _ | cur
      · refine ⟨by simpa [update, hb, hc] using h.1, ?_⟩
        intro c hcand
        have hmem : c ∈ s.candles := by simpa [update, hb, hc] using hcand
        have hstart : (update s (some q) now).2.candle_start = now := by
          simp [update, hb, hc]
        rw [hstart]
        exact lt_trans (h.2 c hmem) hnow
      · constructor
        · simp only [update, hb, hc, if_pos]
          rw [List.map_append]
          rw [List.chain'_append]
          refine ⟨h.1, by simp, ?_⟩
          intro x hx y hy
          simp [finalizeAgg] at hy
          subst hy
          rcases List.mem_map.mp (List.mem_of_mem_getLast? hx) with ⟨c, hcmem, hts⟩
          exact hts ▸ h.2 c hcmem
        · intro c hcand
          simp only [update, hb, hc] at hcand ⊢
          rcases List.mem_append.mp hcand with hm | hm
          · exact lt_trans (h.2 c hm) hnow
          · simp [finalizeAgg] at hm
            subst hm
            simpa [finalizeAgg] using hnow
    · rcases hc : s.current with _ | cur
      · simpa [update, hb, hc, Chrono] using h
      · simpa [update, hb, hc, Chrono] using h

/-- C9: `update` only ever appends to the candle history; the appended
candle (when there is one) carries the start of the window it aggregated;
and the chronology invariant — strictly increasing candle timestamps, all
before the open window's start — holds after `start_collection` and is
preserved by every `update` call. -/
theorem history_append_only_chronological (s : CollectorState) (q? : Option Quote)
    (now t : ℚ) (h : Chrono s) :
    (∃ tail, (update s q? now).2.candles = s.candles ++ tail)
    ∧ (∀ c, (update s q? now).2.candles = s.candles ++ [c] →
        c.timestamp = s.candle_start)
    ∧ Chrono (update s q? now).2
    ∧ Chrono (start_collection t) := by
  refine ⟨?_, ?_, update_chrono s q? now h, by simp [Chrono, start_collection]⟩
  · rcases q? with _ | q
    · exact ⟨[], by simp [update]⟩
    · by_cases hb : interval ≤ now - s.candle_start
      · rcases hc : s.current with _ | cur
        · exact ⟨[], by simp [update, hb, hc]⟩
        · exact ⟨[finalizeAgg cur s.candle_start], by simp [update, hb, hc]⟩
      · rcases hc : s.current with _ | cur
        · exact ⟨[], by simp [update, hb, hc]⟩
        · exact ⟨[], by simp [update, hb, hc]⟩
  · intro c hcand
    rcases q? with _ | q
    · simp [update] at hcand
    · by_cases hb : interval ≤ now - s.candle_start
      · rcases hc : s.current with _ | cur
        · simp [update, hb, hc] at hcand
        · simp only [update, hb, hc, if_pos] at hcand
          have := List.append_cancel_left hcand
          simp at this
          rw [← this]
          simp [finalizeAgg]
      · rcases hc : s.current with _ | cur
        · simp [update, hb, hc] at hcand
        · simp [update, hb, hc] at hcand

/-- C9 witness: a concrete one-candle state satisfying the chronology
invariant, on a boundary ingest, is only appended to and stays
chronological. -/
theorem history_append_only_chronological_witness :
    Chrono shortState.collector
    ∧ (∃ tail, (update shortState.collector (some qW5) 400).2.candles
        = shortState.collector.candles ++ tail)
    ∧ Chrono (update shortState.collector (some qW5) 400).2 := by
  have hch : Chrono shortState.collector := by
    constructor
    · simp [shortState, cW]
    · intro c hc
      simp [shortState, cW] at hc
      subst hc
      norm_num [cW, shortState]
  have h := history_append_only_chronological shortState.collector (some qW5) 400 0 hch
  exact ⟨hch, h.1, h.2.2.1⟩

/-! ## Lemmas for the single-window aggregation property -/

theorem foldAgg_nil (a : Agg) : foldAgg a [] = a := rfl

theorem foldAgg_cons (a : Agg) (q : Quote) (l : List Quote) :
    foldAgg a (q :: l) = foldAgg (stepAgg a q) l := rfl

theorem foldAgg_open (a : Agg) (l : List Quote) : (foldAgg a l).open_ = a.open_ := by
  induction l generalizing a with
  | nil => rfl
  | cons q l ih => rw [foldAgg_cons, ih]; rfl

theorem foldAgg_high (a : Agg) (l : List Quote) :
    (foldAgg a l).high = (l.map midPrice).foldl max a.high := by
  induction l generalizing a with
  | nil => rfl
  | cons q l ih => rw [foldAgg_cons, ih]; rfl

theorem foldAgg_low (a : Agg) (l : List Quote) :
    (foldAgg a l).low = (l.map midPrice).foldl min a.low := by
  induction l generalizing a with
  | nil => rfl
  | cons q l ih => rw [foldAgg_cons, ih]; rfl

theorem foldAgg_close (a : Agg) (l : List Quote) :
    (foldAgg a l).close = (l.map midPrice).getLastD a.close := by
  induction l generalizing a with
  | nil => rfl
  | cons q l ih =>
    rw [foldAgg_cons, ih, List.map_cons, List.getLastD_cons]
    rfl

theorem foldAgg_volume (a : Agg) (l : List Quote) :
    (foldAgg a l).volume = a.volume + (l.map midSize).sum := by
  induction l generalizing a with
  | nil => simp [foldAgg_nil]
  | cons q l ih =>
    rw [foldAgg_cons, ih, List.map_cons, List.sum_cons]
    simp [stepAgg, add_assoc]

theorem update_inwindow_none (s : CollectorState) (q : Quote) (now : ℚ)
    (hb : ¬ interval ≤ now - s.candle_start) (hc : s.current = none) :
    update s (some q) now = (false, { s with current := some (seedAgg q) }) := by
  simp [update, hb, hc]

theorem update_inwindow_some (s : CollectorState) (q : Quote) (cur : Agg) (now : ℚ)
    (hb : ¬ interval ≤ now - s.candle_start) (hc : s.current = some cur) :
    update s (some q) now = (false, { s with current := some (stepAgg cur q) }) := by
  simp [update, hb, hc]

theorem ingestAll_inwindow (l : List (Quote × ℚ)) (cs : List Candle) (a : Agg)
    (t0 : ℚ) (h : ∀ p ∈ l, p.2 - t0 < interval) :
    ingestAll ⟨cs, some a, t0⟩ l = ⟨cs, some (foldAgg a (l.map Prod.fst)), t0⟩ := by
  induction l generalizing a with
  | nil => rfl
  | cons p l ih =>
    have hp : ¬ interval ≤ p.2 - t0 :=
      not_le.mpr (h p (List.mem_cons_self p l))
    have hstep : ingestOne ⟨cs, some a, t0⟩ p = ⟨cs, some (stepAgg a p.1), t0⟩ := by
      rw [ingestOne, update_inwindow_some ⟨cs, some a, t0⟩ p.1 a p.2 hp rfl]
    show ingestAll (ingestOne ⟨cs, some a, t0⟩ p) l = _
    rw [hstep, ih (stepAgg a p.1) fun p' hp' => h p' (List.mem_cons_of_mem p hp')]
    rfl

/-- C1: quotes delivered inside one open window (each strictly before the
interval elapses) are aggregated so that, at the next boundary ingest,
the appended candle has `open` the mid-price of the first quote, `high`
and `low` the running max and min of all mid-prices, `close` the
mid-price of the last quote, and `volume` the rounded sum of all
mid-sizes, stamped with the window's start. -/
theorem single_window_candle (cs : List Candle) (t0 t1 T : ℚ) (q q' : Quote)
    (rest : List (Quote × ℚ))
    (h1 : t1 - t0 < interval)
    (hrest : ∀ p ∈ rest, p.2 - t0 < interval)
    (hT : interval ≤ T - t0) :
    (update (ingestAll ⟨cs, none, t0⟩ ((q, t1) :: rest)) (some q') T).1 = true
    ∧ (update (ingestAll ⟨cs, none, t0⟩ ((q, t1) :: rest)) (some q') T).2.candles
      = cs ++ [{ timestamp := t0
                 open_ := midPrice q
                 high := ((rest.map Prod.fst).map midPrice).foldl max (midPrice q)
                 low := ((rest.map Prod.fst).map midPrice).foldl min (midPrice q)
                 close := ((rest.map Prod.fst).map midPrice).getLastD (midPrice q)
                 volume := round6 (midSize q + ((rest.map Prod.fst).map midSize).sum) }] := by
  have hfirst : ingestOne ⟨cs, none, t0⟩ (q, t1) = ⟨cs, some (seedAgg q), t0⟩ := by
    rw [ingestOne, update_inwindow_none ⟨cs, none, t0⟩ q t1 (not_le.mpr h1) rfl]
  have hall : ingestAll ⟨cs, none, t0⟩ ((q, t1) :: rest)
      = ⟨cs, some (foldAgg (seedAgg q) (rest.map Prod.fst)), t0⟩ := by
    show ingestAll (ingestOne ⟨cs, none, t0⟩ (q, t1)) rest = _
    rw [hfirst, ingestAll_inwindow rest cs (seedAgg q) t0 hrest]
  rw [hall]
  have hfin : update ⟨cs, some (foldAgg (seedAgg q) (rest.map Prod.fst)), t0⟩ (some q') T
      = (true, { candles := cs ++ [finalizeAgg (foldAgg (seedAgg q) (rest.map Prod.fst)) t0]
                 current := some (seedAgg q')
                 candle_start := T }) := by
    simp [update, hT]
  rw [hfin]
  refine ⟨rfl, ?_⟩
  simp only [finalizeAgg, foldAgg_open, foldAgg_high, foldAgg_low, foldAgg_close,
    foldAgg_volume, seedAgg]

/-- C1 witness: the spec's scenario — mid-prices 100, 105, 95, 102 inside
one window produce the candle with open 100, high 105, low 95, close
102, and volume the rounded sum of the mid-sizes. -/
theorem single_window_candle_witness :
    (update (ingestAll ⟨[], none, 0⟩ [(qW1, 0), (qW2, 10), (qW3, 20), (qW4, 30)])
        (some qW5) 300).1 = true
    ∧ (update (ingestAll ⟨[], none, 0⟩ [(qW1, 0), (qW2, 10), (qW3, 20), (qW4, 30)])
        (some qW5) 300).2.candles
      = [{ timestamp := 0, open_ := 100, high := 105, low := 95, close := 102
           volume := 5 }] := by
  have h := single_window_candle [] 0 0 300 qW1 qW5 [(qW2, 10), (qW3, 20), (qW4, 30)]
    (by norm_num [interval])
    (by intro p hp; fin_cases hp <;> norm_num [interval])
    (by norm_num [interval])
  refine ⟨h.1, ?_⟩
  rw [h.2]
  norm_num [qW1, qW2, qW3, qW4, midPrice, midSize, round6, halfEvenRound]

/-! ## Lemmas about the orchestration loop -/

theorem mem_on_new_candle (c : CollectorState) (d dt : Bool) (i : IterInput)
    (e : Event) (h : e ∈ on_new_candle c d dt i) :
    e = Event.computeIndicators ∨ e = Event.detectSignal
    ∨ ∃ sg eq, e = Event.sendSignal sg eq := by
  unfold on_new_candle at h
  split at h
  · exact absurd h (List.not_mem_nil e)
  · split at h
    · exact absurd h (List.not_mem_nil e)
    · rcases List.mem_cons.mp h with h | h
      · exact Or.inl h
      · split at h
        · exact absurd h (List.not_mem_nil e)
        · split at h
          · exact absurd h (List.not_mem_nil e)
          · rcases List.mem_cons.mp h with h | h
            · exact Or.inr (Or.inl h)
            · split at h
              · exact absurd h (List.not_mem_nil e)
              · split at h
                · split at h
                  · exact Or.inr (Or.inr ⟨_, _, List.mem_singleton.mp h⟩)
                  · exact absurd h (List.not_mem_nil e)
                · exact absurd h (List.not_mem_nil e)

theorem countNotify_on_new_candle (c : CollectorState) (d dt : Bool) (i : IterInput) :
    countNotify (on_new_candle c d dt i) = 0 := by
  rw [countNotify, List.countP_eq_zero]
  intro e he
  rcases mem_on_new_candle c d dt i e he with h | h | ⟨sg, eq, h⟩ <;>
    subst h <;> simp [isNotify]

theorem on_new_candle_short (c : CollectorState) (d dt : Bool) (i : IterInput)
    (h : c.candles.length < 100) : on_new_candle c d dt i = [] := by
  unfold on_new_candle
  by_cases he : c.candles.isEmpty = true
  · simp [get_dataframe, he]
  · simp [get_dataframe, he, h]

theorem on_new_candle_empty (c : CollectorState) (d dt : Bool) (i : IterInput)
    (h : c.candles = []) : get_dataframe c = none ∧ on_new_candle c d dt i = [] := by
  constructor
  · simp [get_dataframe, h]
  · unfold on_new_candle
    simp [get_dataframe, h]

theorem countSend_on_new_candle_no_equity (c : CollectorState) (d dt : Bool)
    (i : IterInput) (h : i.equity = none) : countSend (on_new_candle c d dt i) = 0 := by
  rw [countSend, List.countP_eq_zero]
  intro e he
  unfold on_new_candle at he
  simp only [h] at he
  split at he
  · exact absurd he (List.not_mem_nil e)
  · split at he
    · exact absurd he (List.not_mem_nil e)
    · rcases List.mem_cons.mp he with he | he
      · subst he; simp [isSend]
      · split at he
        · exact absurd he (List.not_mem_nil e)
        · split at he
          · exact absurd he (List.not_mem_nil e)
          · rcases List.mem_cons.mp he with he | he
            · subst he; simp [isSend]
            · split at he
              · exact absurd he (List.not_mem_nil e)
              · split at he
                · exact absurd he (List.not_mem_nil e)
                · exact absurd he (List.not_mem_nil e)

theorem afterEnable_fst (cfg : Config) (s : TraderState) (nc : Bool)
    (inp : IterInput) (ev1 : List Event) :
    (afterEnable cfg s nc inp ev1).1.collector = s.collector
    ∧ (afterEnable cfg s nc inp ev1).1.trading_enabled = s.trading_enabled
    ∧ (afterEnable cfg s nc inp ev1).1.hasDetector = s.hasDetector
    ∧ (afterEnable cfg s nc inp ev1).1.hasDiscord = s.hasDiscord := by
  unfold afterEnable
  split_ifs <;> simp

theorem afterEnable_events (cfg : Config) (s : TraderState) (nc : Bool)
    (inp : IterInput) (ev1 : List Event) :
    (afterEnable cfg s nc inp ev1).2
      = ev1
        ++ (if s.trading_enabled = true ∧ nc = true then
              on_new_candle s.collector s.hasDiscord s.hasDetector inp
            else [])
        ++ (if s.hasDiscord = true ∧ s.trading_enabled = true ∧
              cfg.discord_update_interval < inp.wall_time - s.last_discord_update then
              [Event.statusUpdate]
            else []) := by
  unfold afterEnable
  split_ifs <;> simp

theorem countNotify_afterEnable (cfg : Config) (s : TraderState) (nc : Bool)
    (inp : IterInput) (ev1 : List Event) :
    countNotify (afterEnable cfg s nc inp ev1).2 = countNotify ev1 := by
  rw [afterEnable_events]
  simp only [countNotify, List.countP_append]
  have h2 : List.countP isNotify
      (if s.trading_enabled = true ∧ nc = true then
        on_new_candle s.collector s.hasDiscord s.hasDetector inp
      else []) = 0 := by
    split
    · exact countNotify_on_new_candle s.collector s.hasDiscord s.hasDetector inp
    · rfl
  have h3 : List.countP isNotify
      (if s.hasDiscord = true ∧ s.trading_enabled = true ∧
          cfg.discord_update_interval < inp.wall_time - s.last_discord_update then
        [Event.statusUpdate]
      else []) = 0 := by
    split <;> simp [isNotify]
  omega

theorem step_collector (cfg : Config) (s : TraderState) (inp : IterInput) :
    (step cfg s inp).1.collector = (update s.collector inp.quote inp.now).2 := by
  simp only [step]
  by_cases h1 : s.trading_enabled = false
  · by_cases h2 : has_minimum_candles (update s.collector inp.quote inp.now).2
        cfg.min_candles_required = true
    · rw [if_pos h1, if_pos h2, (afterEnable_fst _ _ _ _ _).1]
    · rw [if_pos h1, if_neg h2, (afterEnable_fst _ _ _ _ _).1]
  · rw [if_neg h1, (afterEnable_fst _ _ _ _ _).1]

theorem step_enabled (cfg : Config) (s : TraderState) (inp : IterInput) :
    (step cfg s inp).1.trading_enabled
      = (s.trading_enabled
          || has_minimum_candles (update s.collector inp.quote inp.now).2
              cfg.min_candles_required) := by
  simp only [step]
  by_cases h1 : s.trading_enabled = false
  · by_cases h2 : has_minimum_candles (update s.collector inp.quote inp.now).2
        cfg.min_candles_required = true
    · rw [if_pos h1, if_pos h2, (afterEnable_fst _ _ _ _ _).2.1]
      simp [h1, h2]
    · rw [if_pos h1, if_neg h2, (afterEnable_fst _ _ _ _ _).2.1]
      simp only [Bool.not_eq_true] at h2
      simp [h1, h2]
  · rw [if_neg h1, (afterEnable_fst _ _ _ _ _).2.1]
    simp only [Bool.not_eq_false] at h1
    simp [h1]

theorem step_discord (cfg : Config) (s : TraderState) (inp : IterInput) :
    (step cfg s inp).1.hasDiscord = s.hasDiscord := by
  simp only [step]
  by_cases h1 : s.trading_enabled = false
  · by_cases h2 : has_minimum_candles (update s.collector inp.quote inp.now).2
        cfg.min_candles_required = true
    · rw [if_pos h1, if_pos h2, (afterEnable_fst _ _ _ _ _).2.2.2]
    · rw [if_pos h1, if_neg h2, (afterEnable_fst _ _ _ _ _).2.2.2]
  · rw [if_neg h1, (afterEnable_fst _ _ _ _ _).2.2.2]

theorem step_notify (cfg : Config) (s : TraderState) (inp : IterInput) :
    countNotify (step cfg s inp).2
      = if s.trading_enabled = false ∧ s.hasDiscord = true ∧
            has_minimum_candles (update s.collector inp.quote inp.now).2
              cfg.min_candles_required = true
        then 1 else 0 := by
  simp only [step]
  by_cases h1 : s.trading_enabled = false
  · by_cases h2 : has_minimum_candles (update s.collector inp.quote inp.now).2
        cfg.min_candles_required = true
    · rw [if_pos h1, if_pos h2, countNotify_afterEnable]
      by_cases hd : s.hasDiscord = true
      · rw [if_pos hd]
        simp [h1, hd, h2, countNotify, isNotify]
      · rw [if_neg hd]
        simp only [Bool.not_eq_true] at hd
        simp [hd, countNotify]
    · rw [if_pos h1, if_neg h2, countNotify_afterEnable]
      simp only [Bool.not_eq_true] at h2
      simp [h2, countNotify]
  · rw [if_neg h1, countNotify_afterEnable]
    simp only [Bool.not_eq_false] at h1
    simp [h1, countNotify]

theorem countEval_sublists (cfg : Config) (s : TraderState) (nc : Bool)
    (inp : IterInput) (ev1 : List Event) (h1 : List.countP isEval ev1 = 0) :
    countEval (afterEnable cfg s nc inp ev1).2
      = (if s.trading_enabled = true ∧ nc = true then
          countEval (on_new_candle s.collector s.hasDiscord s.hasDetector inp)
        else 0) := by
  rw [afterEnable_events]
  simp only [countEval, List.countP_append, h1]
  have h3 : List.countP isEval
      (if s.hasDiscord = true ∧ s.trading_enabled = true ∧
          cfg.discord_update_interval < inp.wall_time - s.last_discord_update then
        [Event.statusUpdate]
      else []) = 0 := by
    split <;> simp [isEval]
  rw [h3]
  split <;> simp

theorem step_eval_short (cfg : Config) (s : TraderState) (inp : IterInput)
    (h : (update s.collector inp.quote inp.now).2.candles.length < 100) :
    countEval (step cfg s inp).2 = 0 := by
  simp only [step]
  by_cases h1 : s.trading_enabled = false
  · by_cases h2 : has_minimum_candles (update s.collector inp.quote inp.now).2
        cfg.min_candles_required = true
    · rw [if_pos h1, if_pos h2, countEval_sublists]
      · split
        · rw [on_new_candle_short _ _ _ _ h]
          rfl
        · rfl
      · split <;> simp [isEval]
    · rw [if_pos h1, if_neg h2, countEval_sublists]
      · split
        · rw [on_new_candle_short _ _ _ _ h]
          rfl
        · rfl
      · rfl
  · rw [if_neg h1, countEval_sublists]
    · split
      · rw [on_new_candle_short _ _ _ _ h]
        rfl
      · rfl
    · rfl

theorem step_eval_not_enabled (cfg : Config) (s : TraderState) (inp : IterInput)
    (hb : s.trading_enabled = false)
    (hm : has_minimum_candles (update s.collector inp.quote inp.now).2
        cfg.min_candles_required = false) :
    countEval (step cfg s inp).2 = 0 := by
  simp only [step]
  rw [if_pos hb, if_neg (by simp [hm]), countEval_sublists]
  · rw [if_neg (by simp [hb])]
  · rfl

theorem countSend_sublists (cfg : Config) (s : TraderState) (nc : Bool)
    (inp : IterInput) (ev1 : List Event) (h1 : List.countP isSend ev1 = 0)
    (heq : inp.equity = none) :
    countSend (afterEnable cfg s nc inp ev1).2 = 0 := by
  rw [countSend, afterEnable_events]
  simp only [List.countP_append, h1]
  have h2 : List.countP isSend
      (if s.trading_enabled = true ∧ nc = true then
        on_new_candle s.collector s.hasDiscord s.hasDetector inp
      else []) = 0 := by
    split
    · exact countSend_on_new_candle_no_equity s.collector s.hasDiscord s.hasDetector inp heq
    · rfl
  have h3 : List.countP isSend
      (if s.hasDiscord = true ∧ s.trading_enabled = true ∧
          cfg.discord_update_interval < inp.wall_time - s.last_discord_update then
        [Event.statusUpdate]
      else []) = 0 := by
    split <;> simp [isSend]
  omega

theorem run_nil (cfg : Config) (s : TraderState) : run cfg s [] = (s, []) := rfl

theorem run_cons (cfg : Config) (s : TraderState) (i : IterInput) (l : List IterInput) :
    run cfg s (i :: l)
      = ((run cfg (step cfg s i).1 l).1,
         (step cfg s i).2 ++ (run cfg (step cfg s i).1 l).2) := rfl

theorem run_append (cfg : Config) (l1 l2 : List IterInput) (s : TraderState) :
    run cfg s (l1 ++ l2)
      = ((run cfg (run cfg s l1).1 l2).1,
         (run cfg s l1).2 ++ (run cfg (run cfg s l1).1 l2).2) := by
  induction l1 generalizing s with
  | nil => simp [run_nil]
  | cons i l ih =>
    rw [List.cons_append, run_cons, run_cons, ih (step cfg s i).1]
    simp [run_cons, List.append_assoc]

theorem run_enabled_mono (cfg : Config) (l : List IterInput) (s : TraderState)
    (h : s.trading_enabled = true) : (run cfg s l).1.trading_enabled = true := by
  induction l generalizing s with
  | nil => simpa [run_nil] using h
  | cons i l ih =>
    rw [run_cons]
    exact ih (step cfg s i).1 (by rw [step_enabled, h]; rfl)

theorem run_discord (cfg : Config) (l : List IterInput) (s : TraderState) :
    (run cfg s l).1.hasDiscord = s.hasDiscord := by
  induction l generalizing s with
  | nil => rfl
  | cons i l ih =>
    rw [run_cons]
    rw [show ((run cfg (step cfg s i).1 l).1, (step cfg s i).2
        ++ (run cfg (step cfg s i).1 l).2).1 = (run cfg (step cfg s i).1 l).1 from rfl]
    rw [ih (step cfg s i).1, step_discord]

theorem run_length_mono (cfg : Config) (l : List IterInput) (s : TraderState) :
    s.collector.candles.length ≤ (run cfg s l).1.collector.candles.length := by
  induction l generalizing s with
  | nil => exact le_refl _
  | cons i l ih =>
    rw [run_cons]
    refine le_trans ?_ (ih (step cfg s i).1)
    rw [step_collector]
    exact update_length_le _ _ _

theorem run_good (cfg : Config) (l : List IterInput) (s : TraderState)
    (h : s.trading_enabled = true →
      cfg.min_candles_required ≤ s.collector.candles.length) :
    (run cfg s l).1.trading_enabled = true →
      cfg.min_candles_required ≤ (run cfg s l).1.collector.candles.length := by
  induction l generalizing s with
  | nil => exact h
  | cons i l ih =>
    rw [run_cons]
    refine ih (step cfg s i).1 ?_
    intro he
    rw [step_enabled] at he
    rw [step_collector]
    rcases Bool.or_eq_true_iff.mp he with he | he
    · exact le_trans (h he) (update_length_le _ _ _)
    · simpa [has_minimum_candles] using he

theorem run_notify (cfg : Config) (l : List IterInput) (s : TraderState)
    (hd : s.hasDiscord = true) :
    countNotify (run cfg s l).2
      = if s.trading_enabled = false ∧ (run cfg s l).1.trading_enabled = true
        then 1 else 0 := by
  induction l generalizing s with
  | nil =>
    rw [run_nil]
    cases hb : s.trading_enabled <;> simp [countNotify, hb]
  | cons i l ih =>
    rw [run_cons]
    rw [show ((run cfg (step cfg s i).1 l).1, (step cfg s i).2
        ++ (run cfg (step cfg s i).1 l).2).2 = (step cfg s i).2
        ++ (run cfg (step cfg s i).1 l).2 from rfl]
    rw [show ((run cfg (step cfg s i).1 l).1, (step cfg s i).2
        ++ (run cfg (step cfg s i).1 l).2).1 = (run cfg (step cfg s i).1 l).1 from rfl]
    rw [countNotify, List.countP_append, ← countNotify, ← countNotify]
    have hd' : (step cfg s i).1.hasDiscord = true := by rw [step_discord]; exact hd
    rw [ih (step cfg s i).1 hd', step_notify]
    cases hb : s.trading_enabled
    · by_cases hm : has_minimum_candles (update s.collector i.quote i.now).2
          cfg.min_candles_required = true
      · have hse : (step cfg s i).1.trading_enabled = true := by
          rw [step_enabled, hb, hm]
          rfl
        have hfin := run_enabled_mono cfg l (step cfg s i).1 hse
        simp [hb, hd, hm, hse, hfin]
      · simp only [Bool.not_eq_true] at hm
        have hse : (step cfg s i).1.trading_enabled = false := by
          rw [step_enabled, hb, hm]
          rfl
        simp [hb, hm, hse]
    · have hse : (step cfg s i).1.trading_enabled = true := by
        rw [step_enabled, hb]
        rfl
      simp [hb, hse]

theorem run_snoc (cfg : Config) (l : List IterInput) (i : IterInput) (s : TraderState) :
    run cfg s (l ++ [i])
      = ((step cfg (run cfg s l).1 i).1,
         (run cfg s l).2 ++ (step cfg (run cfg s l).1 i).2) := by
  rw [run_append, run_cons, run_nil]
  simp

theorem run_noEval (cfg : Config) (l : List IterInput) (s : TraderState)
    (hb : s.trading_enabled = false)
    (hlen : (run cfg s l).1.collector.candles.length < cfg.min_candles_required) :
    countEval (run cfg s l).2 = 0 := by
  induction l generalizing s with
  | nil => rfl
  | cons i l ih =>
    have hlen' : (run cfg (step cfg s i).1 l).1.collector.candles.length
        < cfg.min_candles_required := hlen
    have hstep_len : (step cfg s i).1.collector.candles.length
        < cfg.min_candles_required :=
      lt_of_le_of_lt (run_length_mono cfg l (step cfg s i).1) hlen'
    have hm : has_minimum_candles (update s.collector i.quote i.now).2
        cfg.min_candles_required = false := by
      rw [step_collector] at hstep_len
      simp only [has_minimum_candles, decide_eq_false_iff_not, not_le]
      exact hstep_len
    have hse : (step cfg s i).1.trading_enabled = false := by
      rw [step_enabled, hb, hm]
      rfl
    calc countEval (run cfg s (i :: l)).2
        = countEval ((step cfg s i).2 ++ (run cfg (step cfg s i).1 l).2) := rfl
      _ = countEval (step cfg s i).2 + countEval (run cfg (step cfg s i).1 l).2 := by
          simp [countEval, List.countP_append]
      _ = 0 := by
          rw [step_eval_not_enabled cfg s i hb hm, ih (step cfg s i).1 hse hlen']

/-! ## Claim theorems for the orchestration loop -/

/-- C2: starting the loop in COLLECTING, the COLLECTING to
TRADING_ENABLED transition is never reverted; after any nonempty prefix
of iterations the loop is trading-enabled exactly when the candle history
has reached `min_candles_required` (so the flag flips at the first
iteration where it does); the trading-enabled notification is sent
exactly once over a run exactly when the transition happens; and within
one iteration the notification fires exactly when that iteration
performs the transition. -/
theorem trading_enabled_transition (cfg : Config) (t0 w0 : ℚ)
    (inps pre suf : List IterInput) (inp : IterInput)
    (hsplit : inps = pre ++ inp :: suf) :
    ((run cfg (initTrader true t0 w0) pre).1.trading_enabled = true →
      (run cfg (initTrader true t0 w0) inps).1.trading_enabled = true)
    ∧ ((run cfg (initTrader true t0 w0) (pre ++ [inp])).1.trading_enabled = true ↔
        cfg.min_candles_required ≤
          (run cfg (initTrader true t0 w0) (pre ++ [inp])).1.collector.candles.length)
    ∧ countNotify (run cfg (initTrader true t0 w0) inps).2
        = (if (run cfg (initTrader true t0 w0) inps).1.trading_enabled = true
           then 1 else 0)
    ∧ countNotify (step cfg (run cfg (initTrader true t0 w0) pre).1 inp).2
        = (if (run cfg (initTrader true t0 w0) pre).1.trading_enabled = false ∧
              (step cfg (run cfg (initTrader true t0 w0) pre).1 inp).1.trading_enabled
                = true
           then 1 else 0) := by
  refine ⟨?_, ⟨?_, ?_⟩, ?_, ?_⟩
  · intro h
    rw [hsplit, run_append]
    exact run_enabled_mono cfg (inp :: suf) (run cfg (initTrader true t0 w0) pre).1 h
  · intro h
    exact run_good cfg (pre ++ [inp]) (initTrader true t0 w0)
      (by intro hh; simp [initTrader] at hh) h
  · intro hlen
    simp only [run_snoc] at hlen ⊢
    rw [step_enabled]
    rw [step_collector] at hlen
    simp [has_minimum_candles, hlen]
  · have h := run_notify cfg inps (initTrader true t0 w0) rfl
    simpa [initTrader] using h
  · have hdisc : (run cfg (initTrader true t0 w0) pre).1.hasDiscord = true := by
      rw [run_discord]
      rfl
    rw [step_notify]
    by_cases hb : (run cfg (initTrader true t0 w0) pre).1.trading_enabled = false
    · by_cases hm : has_minimum_candles
          (update (run cfg (initTrader true t0 w0) pre).1.collector inp.quote inp.now).2
          cfg.min_candles_required = true
      · have hse : (step cfg (run cfg (initTrader true t0 w0) pre).1 inp).1.trading_enabled
            = true := by
          rw [step_enabled, hb, hm]
          rfl
        simp [hb, hdisc, hm, hse]
      · simp only [Bool.not_eq_true] at hm
        have hse : (step cfg (run cfg (initTrader true t0 w0) pre).1 inp).1.trading_enabled
            = false := by
          rw [step_enabled, hb, hm]
          rfl
        simp [hb, hm, hse]
    · simp only [Bool.not_eq_false] at hb
      simp [hb]

/-- C2 witness: with one candle required, the boundary iteration of a
concrete two-iteration run transitions and sends the notification
exactly once. -/
theorem trading_enabled_transition_witness :
    [iW1, iW2] = [iW1] ++ iW2 :: []
    ∧ countNotify (run cfgW (initTrader true 0 0) [iW1, iW2]).2 = 1 := by
  refine ⟨rfl, ?_⟩
  have h := (trading_enabled_transition cfgW 0 0 [iW1, iW2] [iW1] [] iW2 rfl).2.2.1
  rw [h]
  norm_num [run_cons, run_nil, step, afterEnable, update, initTrader, start_collection,
    iW1, iW2, qW1, qW5, interval, has_minimum_candles, cfgW, seedAgg, finalizeAgg,
    midPrice, midSize, on_new_candle, get_dataframe]

/-- C6: while the whole run stays below `min_candles_required` completed
candles, no iteration invokes the indicator math or the signal detector,
whatever the ingested prices; and over any run the trading-enabled
notification fires exactly once — exactly at the iteration performing
the transition — when the required count is reached. -/
theorem collecting_blocks_evaluation (cfg : Config) (t0 w0 : ℚ)
    (inps inps2 pre2 : List IterInput) (inp2 : IterInput)
    (hlt : (run cfg (initTrader true t0 w0) inps).1.collector.candles.length
        < cfg.min_candles_required) :
    countEval (run cfg (initTrader true t0 w0) inps).2 = 0
    ∧ countNotify (run cfg (initTrader true t0 w0) inps2).2
        = (if (run cfg (initTrader true t0 w0) inps2).1.trading_enabled = true
           then 1 else 0)
    ∧ countNotify (step cfg (run cfg (initTrader true t0 w0) pre2).1 inp2).2
        = (if (run cfg (initTrader true t0 w0) pre2).1.trading_enabled = false ∧
              (step cfg (run cfg (initTrader true t0 w0) pre2).1 inp2).1.trading_enabled
                = true
           then 1 else 0) := by
  refine ⟨run_noEval cfg inps (initTrader true t0 w0) rfl hlt, ?_, ?_⟩
  · have h := run_notify cfg inps2 (initTrader true t0 w0) rfl
    simpa [initTrader] using h
  · have hdisc : (run cfg (initTrader true t0 w0) pre2).1.hasDiscord = true := by
      rw [run_discord]
      rfl
    rw [step_notify]
    by_cases hb : (run cfg (initTrader true t0 w0) pre2).1.trading_enabled = false
    · by_cases hm : has_minimum_candles
          (update (run cfg (initTrader true t0 w0) pre2).1.collector inp2.quote
            inp2.now).2 cfg.min_candles_required = true
      · have hse : (step cfg (run cfg (initTrader true t0 w0) pre2).1 inp2).1.trading_enabled
            = true := by
          rw [step_enabled, hb, hm]
          rfl
        simp [hb, hdisc, hm, hse]
      · simp only [Bool.not_eq_true] at hm
        have hse : (step cfg (run cfg (initTrader true t0 w0) pre2).1 inp2).1.trading_enabled
            = false := by
          rw [step_enabled, hb, hm]
          rfl
        simp [hb, hm, hse]
    · simp only [Bool.not_eq_false] at hb
      simp [hb]

/-- C6 witness: with two candles required, a concrete run completing one
candle reaches neither the indicator math nor the detector. -/
theorem collecting_blocks_evaluation_witness :
    (run cfgW2 (initTrader true 0 0) [iW1, iW2]).1.collector.candles.length
      < cfgW2.min_candles_required
    ∧ countEval (run cfgW2 (initTrader true 0 0) [iW1, iW2]).2 = 0 := by
  have hlt : (run cfgW2 (initTrader true 0 0) [iW1, iW2]).1.collector.candles.length
      < cfgW2.min_candles_required := by
    norm_num [run_cons, run_nil, step, afterEnable, update, initTrader, start_collection,
      iW1, iW2, qW1, qW5, interval, has_minimum_candles, cfgW2, seedAgg, finalizeAgg,
      midPrice, midSize, on_new_candle, get_dataframe]
  exact ⟨hlt,
    (collecting_blocks_evaluation cfgW2 0 0 [iW1, iW2] [iW1, iW2] [iW1] iW2 hlt).1⟩

/-- C7: an iteration in TRADING_ENABLED that completes a candle skips
evaluation entirely — no indicator invocation and no detector invocation
— when the snapshot holds fewer than the 100 rows the indicator warm-up
requires. -/
theorem warmup_lookback_gate (cfg : Config) (s : TraderState) (inp : IterInput)
    (_he : s.trading_enabled = true)
    (_hnc : (update s.collector inp.quote inp.now).1 = true)
    (hshort : (update s.collector inp.quote inp.now).2.candles.length < 100) :
    countEval (step cfg s inp).2 = 0 :=
  step_eval_short cfg s inp hshort

/-- C7 witness: a concrete enabled iteration completing its second candle
(far below 100) performs no evaluation. -/
theorem warmup_lookback_gate_witness :
    shortState.trading_enabled = true
    ∧ (update shortState.collector iW3.quote iW3.now).1 = true
    ∧ (update shortState.collector iW3.quote iW3.now).2.candles.length < 100
    ∧ countEval (step cfgW shortState iW3).2 = 0 := by
  have hnc : (update shortState.collector iW3.quote iW3.now).1 = true := by
    norm_num [update, shortState, iW3, qW5, interval, aW, cW]
  have hshort : (update shortState.collector iW3.quote iW3.now).2.candles.length
      < 100 := by
    norm_num [update, shortState, iW3, qW5, interval, aW, cW, seedAgg, finalizeAgg,
      midPrice, midSize]
  exact ⟨rfl, hnc, hshort, warmup_lookback_gate cfgW shortState iW3 rfl hnc hshort⟩

/-- C10: on an empty candle history `get_dataframe` returns `None` (not
an empty list — on a nonempty history it returns the rows), and the
per-candle evaluation path returns immediately on `None`, invoking
neither the indicator math nor the detector. -/
theorem empty_history_snapshot (s s2 : CollectorState) (hd hdet : Bool)
    (i : IterInput) (h : s.candles = []) (h2 : s2.candles ≠ []) :
    get_dataframe s = none
    ∧ on_new_candle s hd hdet i = []
    ∧ get_dataframe s2 = some s2.candles := by
  refine ⟨(on_new_candle_empty s hd hdet i h).1, (on_new_candle_empty s hd hdet i h).2, ?_⟩
  simp [get_dataframe, h2]

/-- C10 witness: on the concrete empty collector the snapshot is `None`
and the evaluation path emits nothing; on a one-candle collector the
snapshot is the rows. -/
theorem empty_history_snapshot_witness :
    (start_collection 0).candles = []
    ∧ shortState.collector.candles ≠ []
    ∧ get_dataframe (start_collection 0) = none
    ∧ on_new_candle (start_collection 0) true true iW1 = [] := by
  have h2 : shortState.collector.candles ≠ [] := by simp [shortState]
  have h := empty_history_snapshot (start_collection 0) shortState.collector true true
    iW1 rfl h2
  exact ⟨rfl, h2, h.1, h.2.1⟩

/-- C5 counterexample: a concrete enabled iteration in which the detector
produces a signal and the `get_account()` equity fetch fails: the
detector demonstrably ran, yet no `send_signal` delivery occurs — the
notification is skipped, not sent without the equity. -/
theorem signal_suppressed_counterexample :
    sigInput.signal.isSome = true
    ∧ sigInput.equity = none
    ∧ Event.detectSignal ∈ (step cfgW sigState sigInput).2
    ∧ countSend (step cfgW sigState sigInput).2 = 0 := by
  refine ⟨rfl, rfl, ?_, ?_⟩
  · norm_num [step, afterEnable, update, sigState, sigInput, qW5, interval,
      has_minimum_candles, cfgW, csW, seedAgg, finalizeAgg, midPrice, midSize,
      on_new_candle, get_dataframe, aW, sigW]
  · norm_num [step, afterEnable, update, sigState, sigInput, qW5, interval,
      has_minimum_candles, cfgW, csW, seedAgg, finalizeAgg, midPrice, midSize,
      on_new_candle, get_dataframe, aW, sigW, countSend, isSend]

/-- C5 (amended): when the equity fetch fails, the signal notification is
skipped — `get_account()` and `send_signal` share one `try/except: pass`,
so no `send_signal` delivery happens in that iteration (the iteration
itself completes and the loop continues). -/
theorem failed_equity_skips_send (cfg : Config) (s : TraderState) (inp : IterInput)
    (h : inp.equity = none) : countSend (step cfg s inp).2 = 0 := by
  simp only [step]
  by_cases h1 : s.trading_enabled = false
  · by_cases h2 : has_minimum_candles (update s.collector inp.quote inp.now).2
        cfg.min_candles_required = true
    · rw [if_pos h1, if_pos h2]
      exact countSend_sublists _ _ _ _ _ (by split <;> simp [isSend]) h
    · rw [if_pos h1, if_neg h2]
      exact countSend_sublists _ _ _ _ _ rfl h
  · rw [if_neg h1]
    exact countSend_sublists _ _ _ _ _ rfl h

/-- C5 (amended) witness: the concrete failed-equity iteration delivers
no `send_signal`. -/
theorem failed_equity_skips_send_witness :
    sigInput.equity = none ∧ countSend (step cfgW sigState sigInput).2 = 0 :=
  ⟨rfl, failed_equity_skips_send cfgW sigState sigInput rfl⟩

end Trader
